import Mathlib

/-!
Verification of the field-store slice and its derived-data queries.

The development shallowly embeds the Redux slice of the farm dashboard
(state shape, reducer cases for clickField / closeFieldInfoWindow and the
pending / fulfilled / rejected fetch lifecycle, and the selectors
getAllFields, getFieldById, getFieldCenterById) together with the
SelectedFieldCard view selector of the application entry point.

JavaScript runtime values appearing in coordinate positions are modelled by
an explicit value type, so that the lodash isNumber check (which classifies
NaN and the infinities as numbers) is represented faithfully.  JavaScript
objects used as id-keyed entity maps are modelled as association lists with
the object-spread update semantics (replace in place when the key exists,
append otherwise); numeric field identifiers are modelled as integers and
finite JavaScript numbers as rationals.  Code that can throw is modelled
in the Except monad; optional values in Option.
-/

namespace FarmHQ

/-- A JavaScript runtime value, as far as the coordinate-handling code can
observe it: a finite number, NaN, the two infinities, or one of the
non-number shapes (string, boolean, null, undefined). -/
inductive JSVal where
  | num (q : ℚ)
  | nan
  | infinity
  | negInfinity
  | str (s : String)
  | boolean (b : Bool)
  | nullV
  | undef
deriving DecidableEq

/-- lodash isNumber: true exactly for values of JavaScript type number,
which includes NaN and the infinities. -/
def isNumber : JSVal → Bool
  | JSVal.num _ => true
  | JSVal.nan => true
  | JSVal.infinity => true
  | JSVal.negInfinity => true
  | _ => false

/-- A value that is a finite JavaScript number (what Number.isFinite
accepts); strictly stronger than isNumber. -/
def isFiniteNumber : JSVal → Bool
  | JSVal.num _ => true
  | _ => false

/-- GeoJSON-shaped polygon geometry: a list of rings, each ring a list of
coordinate positions.  A position is modelled by its first two components
(longitude, latitude); a malformed position simply carries non-number
values in those slots. -/
structure Polygon where
  coordinates : List (List (JSVal × JSVal))
deriving DecidableEq

/-- A farm field as stored in the entity store (the Field type of the
repository): integer identifier, name, polygon geometry. -/
structure Field where
  id : Int
  field_name : String
  polygon : Polygon
deriving DecidableEq

/-- google.maps.LatLngLiteral as produced by the queries: a record with
lng and lat slots holding JavaScript values. -/
structure LatLngLiteral where
  lng : JSVal
  lat : JSVal
deriving DecidableEq

/-- The per-collection fetch status values that can be stored (the absent,
unstarted case is the surrounding Option none). -/
inductive FetchStatus where
  | pending
  | fulfilled
  | rejected
deriving DecidableEq

/-- The fields slice of the store: FieldsState from the source, with the
entities object modelled as an association list from id to Field. -/
structure FieldsState where
  ids : List Int
  entities : List (Int × Field)
  selectedId : Option Int
  fetchStatus : Option FetchStatus
deriving DecidableEq

/-- initialState of the fields slice: empty entities, empty ids, and the
two optional slots absent. -/
def initialState : FieldsState :=
  { ids := [], entities := [], selectedId := none, fetchStatus := none }

/-- Property lookup on the entity object: the value stored at the given
key, if any (entities[fieldId]). -/
def lookupEntity (m : List (Int × Field)) (k : Int) : Option Field :=
  match m with
  | [] => none
  | p :: rest => if p.1 = k then some p.2 else lookupEntity rest k

/-- Object-spread update on the entity object: the semantics of
writing key k to value v in a JavaScript object — if the key is present
its value is replaced in place, otherwise the binding is appended. -/
def setKey (m : List (Int × Field)) (k : Int) (v : Field) : List (Int × Field) :=
  match m with
  | [] => [(k, v)]
  | p :: rest => if p.1 = k then (k, v) :: rest else p :: setKey rest k v

/-- The entity object built by the fulfilled case:
payload.reduce((acc, field) => ({ ...acc, [field.id]: { ...field } }), {}). -/
def fulfilledEntities (payload : List Field) : List (Int × Field) :=
  payload.foldl (fun acc f => setKey acc f.id f) []

/-- The actions the fields slice reducer handles: the two slice reducers
and the three lifecycle cases of the fetchFields thunk. -/
inductive Action where
  | clickField (id : Int)
  | closeFieldInfoWindow
  | fetchPending
  | fetchFulfilled (payload : List Field)
  | fetchRejected
deriving DecidableEq

/-- The fields slice reducer: clickField sets the selection pointer,
closeFieldInfoWindow clears it, fetchFields.pending records "pending",
fetchFields.fulfilled records "fulfilled" and replaces ids and entities
from the payload, fetchFields.rejected records "rejected" and touches
nothing else. -/
def fieldsReducer (state : FieldsState) : Action → FieldsState
  | Action.clickField id => { state with selectedId := some id }
  | Action.closeFieldInfoWindow => { state with selectedId := none }
  | Action.fetchPending => { state with fetchStatus := some FetchStatus.pending }
  | Action.fetchFulfilled payload =>
      { state with
          fetchStatus := some FetchStatus.fulfilled,
          ids := payload.map (fun f => f.id),
          entities := fulfilledEntities payload }
  | Action.fetchRejected => { state with fetchStatus := some FetchStatus.rejected }

/-- Run a list of actions through the fields slice reducer starting from
the initial state. -/
def runActions (acts : List Action) : FieldsState :=
  acts.foldl fieldsReducer initialState

/-- One most-recent reading of an irrigation reel device: current state
and run speed. -/
structure ReelReading where
  state_current : String
  run_speed_mmpm : ℚ
deriving DecidableEq

/-- One most-recent reading of a pressure device: current state and the
reading in kilopascals. -/
structure PressureReading where
  state_current : String
  reading_kpa : ℚ
deriving DecidableEq

/-- A most-recent reading for one device: it may carry a reel part, a
pressure part, both, or neither (the view falls back to a no-status
message when neither is present). -/
structure DeviceReading where
  reel : Option ReelReading
  pressure : Option PressureReading
deriving DecidableEq

/-- A device-events group: the field name it is associated with and the
mapping from device name to most-recent reading. -/
structure DeviceEvent where
  field_name : String
  mostRecentEvents : List (String × DeviceReading)
deriving DecidableEq

/-- The root store state: the fields slice plus the device-events
collection the events queries read. -/
structure RootState where
  fields : FieldsState
  deviceEvents : List DeviceEvent
deriving DecidableEq

/-- Worker for getAllFields: map each id to its entity, throwing on the
first id with no entity. -/
def getAllFieldsAux (entities : List (Int × Field)) : List Int → Except String (List Field)
  | [] => Except.ok []
  | id :: rest =>
    match lookupEntity entities id with
    | none => Except.error ("No field found with id " ++ toString id)
    | some f =>
      match getAllFieldsAux entities rest with
      | Except.ok fs => Except.ok (f :: fs)
      | Except.error e => Except.error e

/-- getAllFields: state.fields.ids.map over the entities object, throwing
"No field found with id ..." when an id has no entity. -/
def getAllFields (s : RootState) : Except String (List Field) :=
  getAllFieldsAux s.fields.entities s.fields.ids

/-- The result shape of getFieldById: the stored field spread together
with the optional outerRing of map coordinates. -/
structure FieldWithOuterRing where
  field : Field
  outerRing : Option (List LatLngLiteral)
deriving DecidableEq

/-- getFieldById: resolve the entity; when present, augment it with
outerRing, the first coordinate ring reduced to the pairs whose two
components both pass isNumber (in order); when the polygon has no ring at
all, outerRing is absent; when the id is absent, return undefined. -/
def getFieldById (s : RootState) (fieldId : Int) : Option FieldWithOuterRing :=
  match lookupEntity s.fields.entities fieldId with
  | some field =>
    some { field := field
           outerRing :=
             match field.polygon.coordinates.head? with
             | none => none
             | some outerRing =>
               some (outerRing.foldl
                 (fun acc p =>
                   if isNumber p.1 && isNumber p.2 then
                     acc ++ [{ lng := p.1, lat := p.2 }]
                   else acc)
                 []) }
  | none => none

/-- The numeric coordinate pairs of a polygon, over all rings, in order. -/
def numericPoints (p : Polygon) : List (ℚ × ℚ) :=
  p.coordinates.flatten.filterMap (fun q =>
    match q with
    | (JSVal.num a, JSVal.num b) => some (a, b)
    | _ => none)

/-- Modelled from the spec: the center calculation of the third-party
geometry library (turf.center), whose source is not part of this
repository.  Per the spec it is the geometry library's center over the
field's polygon; turf documents it as the midpoint of the bounding box of
the geometry's coordinates.  It is modelled here as that midpoint over the
polygon's numeric coordinate pairs, with NaN components when the polygon
has no numeric coordinate pair at all. -/
def turfCenter (p : Polygon) : JSVal × JSVal :=
  match numericPoints p with
  | [] => (JSVal.nan, JSVal.nan)
  | q :: rest =>
    (JSVal.num ((rest.foldl (fun m r => if r.1 < m then r.1 else m) q.1
                  + rest.foldl (fun m r => if m < r.1 then r.1 else m) q.1) / 2),
     JSVal.num ((rest.foldl (fun m r => if r.2 < m then r.2 else m) q.2
                  + rest.foldl (fun m r => if m < r.2 then r.2 else m) q.2) / 2))

/-- getFieldCenterById: resolve the field, delegate to the geometry
library's center over its polygon, and return the lng/lat record when both
computed components pass isNumber, undefined otherwise. -/
def getFieldCenterById (s : RootState) (id : Int) : Option LatLngLiteral :=
  match getFieldById s id with
  | some fieldData =>
    let c := turfCenter fieldData.field.polygon
    if isNumber c.1 && isNumber c.2 then some { lng := c.1, lat := c.2 } else none
  | none => none

/-- Modelled from the spec: the most-recent-events-per-field query, which
lives in a reducers module that is not among the provided source files.
Per the spec it is a pass-through selection by field name over the stored
device events: it returns the stored most-recent-events mapping (device
name to reading) of the events group whose field name matches the
argument, and an empty mapping when none matches.  It reads only the
device-events part of the state, never the fields slice. -/
def getMostRecentEventsPerField (s : RootState) (fieldName : String) :
    List (String × DeviceReading) :=
  match s.deviceEvents.find? (fun e => e.field_name == fieldName) with
  | some e => e.mostRecentEvents
  | none => []

/-- The data assembled by the SelectedFieldCard view for the selected
field: its name, its display center and the device-events mapping shown
in the card. -/
structure SelectedFieldView where
  fieldName : String
  center : LatLngLiteral
  mostRecentEvents : List (String × DeviceReading)
deriving DecidableEq

/-- The SelectedFieldCard selector: when no field is selected the card
renders nothing; otherwise it resolves the selected field's name and
center, looks up the device events under the hard-coded field name
"Perez-Brown", and throws "Incomplete field data for id ..." when the name
or the center is undefined. -/
def selectedFieldCardData (s : RootState) : Except String (Option SelectedFieldView) :=
  match s.fields.selectedId with
  | none => Except.ok none
  | some selectedId =>
    let fieldName := (getFieldById s selectedId).map (fun fw => fw.field.field_name)
    let center := getFieldCenterById s selectedId
    let mostRecentEvents := getMostRecentEventsPerField s "Perez-Brown"
    match fieldName, center with
    | some n, some c =>
      Except.ok (some { fieldName := n, center := c, mostRecentEvents := mostRecentEvents })
    | _, _ => Except.error ("Incomplete field data for id " ++ toString selectedId)

/-- The same root state with the selection pointer set to the given id and
everything else unchanged. -/
def withSelected (s : RootState) (id : Int) : RootState :=
  { s with fields := { s.fields with selectedId := some id } }

/-- Whether an action belongs to the fetchFields lifecycle. -/
def isFetchAct : Action → Bool
  | Action.fetchPending => true
  | Action.fetchFulfilled _ => true
  | Action.fetchRejected => true
  | _ => false

/-- Whether an action settles the fetch (fulfilled or rejected). -/
def isSettleAct : Action → Bool
  | Action.fetchFulfilled _ => true
  | Action.fetchRejected => true
  | _ => false

/-- The fetch status an action writes, if any. -/
def actStatus : Action → Option FetchStatus
  | Action.fetchPending => some FetchStatus.pending
  | Action.fetchFulfilled _ => some FetchStatus.fulfilled
  | Action.fetchRejected => some FetchStatus.rejected
  | _ => none

/-- The fetch status after a run of fetch-lifecycle actions: each one
overwrites the status with the value it records. -/
def statusAfter (st : Option FetchStatus) : List Action → Option FetchStatus
  | [] => st
  | a :: rest => statusAfter (actStatus a) rest

/-- What may follow the initial pending event in a session's fetch
subsequence: nothing yet, or exactly one settling event. -/
def afterPending : List Action → Prop
  | [] => True
  | [b] => isSettleAct b = true
  | _ :: _ :: _ => False

/-- A legal per-session fetch subsequence: empty, or a pending event
followed by at most one settling event (the thunk protocol: the fetch is
dispatched once per session, so pending happens once and is settled at
most once). -/
def sessionFetchSeq : List Action → Prop
  | [] => True
  | a :: rest => a = Action.fetchPending ∧ afterPending rest

/-- An action trace reachable in a session: its fetch-lifecycle
subsequence respects the once-per-session thunk protocol. -/
def SessionTrace (acts : List Action) : Prop :=
  sessionFetchSeq (acts.filter isFetchAct)

/-- The transitions of the spec's fetch-status state machine: stay put,
start (unstarted to pending), or settle (pending to fulfilled or
rejected). -/
def allowedStep (a b : Option FetchStatus) : Prop :=
  a = b ∨ (a = none ∧ b = some FetchStatus.pending) ∨
    (a = some FetchStatus.pending ∧
      (b = some FetchStatus.fulfilled ∨ b = some FetchStatus.rejected))

/-- A settled fetch status. -/
def Settled (st : Option FetchStatus) : Prop :=
  st = some FetchStatus.fulfilled ∨ st = some FetchStatus.rejected

/-- The spec's worked example field: id 1, name North, unit-square outer
ring. -/
def exFieldNorth : Field :=
  { id := 1, field_name := "North",
    polygon :=
      { coordinates :=
          [[(JSVal.num 0, JSVal.num 0), (JSVal.num 0, JSVal.num 1),
            (JSVal.num 1, JSVal.num 1), (JSVal.num 1, JSVal.num 0),
            (JSVal.num 0, JSVal.num 0)]] } }

/-- Store state after fetching the spec's worked example payload. -/
def exRoot : RootState :=
  { fields := { ids := [1], entities := [(1, exFieldNorth)],
                selectedId := none, fetchStatus := some FetchStatus.fulfilled },
    deviceEvents := [] }

/-- A field whose stored outer ring mixes a NaN-bearing pair, a pair with
a string component, and a plain numeric pair. -/
def fieldMixedRing : Field :=
  { id := 1, field_name := "North",
    polygon :=
      { coordinates :=
          [[(JSVal.nan, JSVal.num 0), (JSVal.str "x", JSVal.num 3),
            (JSVal.num 1, JSVal.num 2)]] } }

/-- Store state holding the mixed-ring field under id 1. -/
def rootMixedRing : RootState :=
  { fields := { ids := [1], entities := [(1, fieldMixedRing)],
                selectedId := none, fetchStatus := some FetchStatus.fulfilled },
    deviceEvents := [] }

/-- Concrete fields used by the fetch-replacement witness. -/
def fldA : Field :=
  { id := 1, field_name := "A",
    polygon := { coordinates := [[(JSVal.num 0, JSVal.num 0)]] } }

/-- Second concrete field for the fetch-replacement witness. -/
def fldB : Field :=
  { id := 2, field_name := "B",
    polygon := { coordinates := [[(JSVal.num 2, JSVal.num 2)]] } }

/-- Third concrete field for the fetch-replacement witness. -/
def fldC : Field :=
  { id := 3, field_name := "C",
    polygon := { coordinates := [[(JSVal.num 5, JSVal.num 5)]] } }

/-- Store state with two fields and one device-events group, used by the
selected-field witnesses. -/
def rootTwoFields : RootState :=
  { fields := { ids := [1, 2], entities := [(1, fldA), (2, fldB)],
                selectedId := none, fetchStatus := some FetchStatus.fulfilled },
    deviceEvents :=
      [{ field_name := "Perez-Brown",
         mostRecentEvents :=
           [("D1", { reel := some { state_current := "running", run_speed_mmpm := 30 },
                     pressure := none })] }] }

/-- Store state whose selection pointer dangles: id 5 is selected but no
entity is stored. -/
def rootDangling : RootState :=
  { fields := { ids := [], entities := [], selectedId := some 5, fetchStatus := none },
    deviceEvents := [] }

/-- Looking a key up after an object-spread write sees the written value at
that key and the old object elsewhere. -/
theorem lookup_setKey (m : List (Int × Field)) (k : Int) (v : Field) (j : Int) :
    lookupEntity (setKey m k v) j = if j = k then some v else lookupEntity m j := by
  induction m with
  | nil =>
    by_cases h : j = k
    · simp [setKey, lookupEntity, h]
    · have h2 : ¬k = j := fun hh => h hh.symm
      simp [setKey, lookupEntity, h, h2]
  | cons p rest ih =>
    by_cases hpk : p.1 = k
    · by_cases hjk : j = k
      · simp [setKey, hpk, lookupEntity, hjk]
      · have hpj : ¬p.1 = j := by rw [hpk]; exact fun hh => hjk hh.symm
        have h2 : ¬k = j := fun hh => hjk hh.symm
        simp [setKey, hpk, lookupEntity, hjk, hpj, h2]
    · by_cases hpj : p.1 = j
      · have hjk : ¬j = k := by rw [← hpj]; exact hpk
        simp [setKey, hpk, lookupEntity, hpj, hjk]
      · simp [setKey, hpk, lookupEntity, hpj, ih]

/-- Folding the fulfilled entity-building step over a payload leaves keys
that no payload field carries untouched. -/
theorem lookup_foldl_not_mem (payload : List Field) :
    ∀ (acc : List (Int × Field)) (k : Int), (∀ f ∈ payload, f.id ≠ k) →
      lookupEntity (payload.foldl (fun acc f => setKey acc f.id f) acc) k =
        lookupEntity acc k := by
  induction payload with
  | nil => intro acc k _; rfl
  | cons g rest ih =>
    intro acc k hk
    have hg : g.id ≠ k := hk g (List.mem_cons_self g rest)
    have hrest : ∀ f ∈ rest, f.id ≠ k :=
      fun f hf => hk f (List.mem_cons_of_mem g hf)
    simp only [List.foldl_cons]
    rw [ih (setKey acc g.id g) k hrest, lookup_setKey]
    have h2 : ¬k = g.id := fun hh => hg hh.symm
    simp [h2]

/-- With pairwise-distinct payload identifiers, every payload field is
found under its id in the entity object built by the fulfilled case. -/
theorem lookup_foldl_mem (payload : List Field) :
    ∀ acc : List (Int × Field), (payload.map (fun f => f.id)).Nodup →
      ∀ f ∈ payload,
        lookupEntity (payload.foldl (fun acc f => setKey acc f.id f) acc) f.id =
          some f := by
  induction payload with
  | nil => intro acc _ f hf; exact absurd hf (List.not_mem_nil f)
  | cons g rest ih =>
    intro acc hnd f hf
    have hnd2 := hnd
    rw [List.map_cons, List.nodup_cons] at hnd2
    rcases List.mem_cons.mp hf with hfg | hfr
    · subst hfg
      have hno : ∀ h ∈ rest, h.id ≠ f.id := by
        intro h hh heq
        exact hnd2.1 (heq ▸ List.mem_map_of_mem (fun f => f.id) hh)
      simp only [List.foldl_cons]
      rw [lookup_foldl_not_mem rest (setKey acc f.id f) f.id hno, lookup_setKey]
      simp
    · simp only [List.foldl_cons]
      exact ih (setKey acc g.id g) hnd2.2 f hfr

/-- Every identifier occurring in the payload has some entity in the
object built by the fulfilled case, duplicates or not. -/
theorem lookup_foldl_isSome (payload : List Field) :
    ∀ (acc : List (Int × Field)) (k : Int),
      ((∃ f ∈ payload, f.id = k) ∨ (lookupEntity acc k).isSome = true) →
      (lookupEntity (payload.foldl (fun acc f => setKey acc f.id f) acc) k).isSome
        = true := by
  induction payload with
  | nil =>
    intro acc k h
    rcases h with ⟨f, hf, _⟩ | h
    · exact absurd hf (List.not_mem_nil f)
    · exact h
  | cons g rest ih =>
    intro acc k h
    simp only [List.foldl_cons]
    apply ih (setKey acc g.id g) k
    rcases h with ⟨f, hf, hfk⟩ | h
    · rcases List.mem_cons.mp hf with hfg | hfr
      · right
        subst hfg
        rw [lookup_setKey]
        simp [hfk.symm]
      · exact Or.inl ⟨f, hfr, hfk⟩
    · right
      rw [lookup_setKey]
      by_cases hk : k = g.id <;> simp [hk, h]

/-- When every listed id resolves to some entity, the getAllFields worker
succeeds. -/
theorem getAllFieldsAux_ok_of_isSome (entities : List (Int × Field)) :
    ∀ ids : List Int, (∀ id ∈ ids, (lookupEntity entities id).isSome = true) →
      ∃ fs, getAllFieldsAux entities ids = Except.ok fs := by
  intro ids
  induction ids with
  | nil => intro _; exact ⟨[], rfl⟩
  | cons id rest ih =>
    intro h
    have hid := h id (List.mem_cons_self id rest)
    rcases Option.isSome_iff_exists.mp hid with ⟨f, hf⟩
    rcases ih (fun j hj => h j (List.mem_cons_of_mem id hj)) with ⟨fs, hfs⟩
    exact ⟨f :: fs, by simp [getAllFieldsAux, hf, hfs]⟩

/-- When every field of a list resolves to itself under its id, mapping
the ids back through the getAllFields worker recovers the list in order. -/
theorem getAllFieldsAux_ok (entities : List (Int × Field)) :
    ∀ sub : List Field, (∀ f ∈ sub, lookupEntity entities f.id = some f) →
      getAllFieldsAux entities (sub.map (fun f => f.id)) = Except.ok sub := by
  intro sub
  induction sub with
  | nil => intro _; rfl
  | cons f rest ih =>
    intro h
    have hf := h f (List.mem_cons_self f rest)
    have hrest := ih (fun g hg => h g (List.mem_cons_of_mem f hg))
    simp [getAllFieldsAux, hf, hrest]

/-- The coordinate-pair fold of getFieldById is the filter of the ring to
its isNumber pairs, converted to lng/lat records, appended to the
accumulator. -/
theorem ring_foldl_filter (ring : List (JSVal × JSVal)) :
    ∀ acc : List LatLngLiteral,
      ring.foldl
        (fun acc p =>
          if isNumber p.1 && isNumber p.2 then
            acc ++ [{ lng := p.1, lat := p.2 }]
          else acc)
        acc
      = acc ++ (ring.filter (fun p => isNumber p.1 && isNumber p.2)).map
          (fun p => { lng := p.1, lat := p.2 : LatLngLiteral }) := by
  induction ring with
  | nil => intro acc; simp
  | cons p rest ih =>
    intro acc
    by_cases h : (isNumber p.1 && isNumber p.2) = true
    · simp only [List.foldl_cons, List.filter_cons]
      rw [if_pos h, if_pos h, ih, List.map_cons]
      simp [List.append_assoc]
    · simp only [List.foldl_cons, List.filter_cons]
      rw [if_neg h, if_neg h, ih]

/-- Both components the geometry-library center model produces pass the
isNumber classification (they are numbers or NaN). -/
theorem turfCenter_isNumber (p : Polygon) :
    isNumber (turfCenter p).1 = true ∧ isNumber (turfCenter p).2 = true := by
  cases h : numericPoints p <;> simp [turfCenter, h, isNumber]

/-- The fetch status reached by a run of the reducer is determined by the
fetch-lifecycle subsequence of the actions alone. -/
theorem foldl_fetchStatus (acts : List Action) :
    ∀ s : FieldsState,
      (acts.foldl fieldsReducer s).fetchStatus =
        statusAfter s.fetchStatus (acts.filter isFetchAct) := by
  induction acts with
  | nil => intro s; rfl
  | cons a rest ih =>
    intro s
    cases a with
    | clickField id =>
      simpa [fieldsReducer, isFetchAct] using ih { s with selectedId := some id }
    | closeFieldInfoWindow =>
      simpa [fieldsReducer, isFetchAct] using ih { s with selectedId := none }
    | fetchPending =>
      simpa [fieldsReducer, isFetchAct, statusAfter, actStatus] using
        ih { s with fetchStatus := some FetchStatus.pending }
    | fetchFulfilled payload =>
      simpa [fieldsReducer, isFetchAct, statusAfter, actStatus] using
        ih { s with
              fetchStatus := some FetchStatus.fulfilled,
              ids := payload.map (fun f => f.id),
              entities := fulfilledEntities payload }
    | fetchRejected =>
      simpa [fieldsReducer, isFetchAct, statusAfter, actStatus] using
        ih { s with fetchStatus := some FetchStatus.rejected }

/-- Replaying actions none of which settles the fetch cannot produce a
settled status from an unsettled one. -/
theorem statusAfter_not_settled (l : List Action) :
    ∀ st : Option FetchStatus, (∀ x ∈ l, isSettleAct x = false) →
      ¬Settled st → ¬Settled (statusAfter st l) := by
  induction l with
  | nil => intro st _ h2; exact h2
  | cons a rest ih =>
    intro st h1 h2
    have ha := h1 a (List.mem_cons_self a rest)
    apply ih (actStatus a) (fun x hx => h1 x (List.mem_cons_of_mem a hx))
    cases a with
    | clickField id => rintro (h | h) <;> simp [actStatus] at h
    | closeFieldInfoWindow => rintro (h | h) <;> simp [actStatus] at h
    | fetchPending => rintro (h | h) <;> simp [actStatus] at h
    | fetchFulfilled payload => simp [isSettleAct] at ha
    | fetchRejected => simp [isSettleAct] at ha

/-- A settled status reached from the unstarted one requires a settling
event somewhere in the replayed fetch subsequence. -/
theorem settled_has_settle (l : List Action)
    (h : Settled (statusAfter none l)) : ∃ x ∈ l, isSettleAct x = true := by
  by_contra hno
  push_neg at hno
  have hall : ∀ x ∈ l, isSettleAct x = false := by
    intro x hx
    have := hno x hx
    simpa using this
  exact statusAfter_not_settled l none hall (by rintro (h2 | h2) <;> simp at h2) h

/-- Decomposing a legal session fetch subsequence around one of its
events: the event is either the opening pending with nothing before it, or
a settling event preceded by exactly the opening pending. -/
theorem sessionSeq_decomp (fp fs : List Action) (a : Action)
    (hs : sessionFetchSeq (fp ++ a :: fs)) :
    (fp = [] ∧ a = Action.fetchPending) ∨
      (fp = [Action.fetchPending] ∧ isSettleAct a = true) := by
  cases fp with
  | nil => exact Or.inl ⟨rfl, hs.1⟩
  | cons x rest =>
    cases rest with
    | nil =>
      cases fs with
      | nil => exact Or.inr ⟨by rw [hs.1], hs.2⟩
      | cons b bs => exact hs.2.elim
    | cons r rs =>
      cases rs with
      | nil => exact hs.2.elim
      | cons r2 rs2 => exact hs.2.elim

/-- The fetch subsequence of an action list distributes over append. -/
theorem filter_fetch_append (l1 l2 : List Action) :
    (l1 ++ l2).filter isFetchAct = l1.filter isFetchAct ++ l2.filter isFetchAct :=
  List.filter_append l1 l2

/-- Claim C3: handling a rejected fetch sets fetchStatus to rejected and
leaves every other part of the state unchanged — entities, ids and the
selection pointer are exactly as before, so stale data remains present. -/
theorem c3_rejected_fetch_keeps_state : ∀ s : FieldsState,
    (fieldsReducer s Action.fetchRejected).fetchStatus = some FetchStatus.rejected ∧
    (fieldsReducer s Action.fetchRejected).entities = s.entities ∧
    (fieldsReducer s Action.fetchRejected).ids = s.ids ∧
    (fieldsReducer s Action.fetchRejected).selectedId = s.selectedId :=
  fun _ => ⟨rfl, rfl, rfl, rfl⟩

/-- Claim C6: for every store state and every field identifier with no
entry in the entities map, getFieldById returns the explicit absent value
(undefined, modelled as none) — by its Option result type it cannot raise
an error. -/
theorem c6_get_field_by_id_absent_returns_undefined :
    ∀ (s : RootState) (fieldId : Int),
      lookupEntity s.fields.entities fieldId = none →
      getFieldById s fieldId = none := by
  intro s fieldId h
  simp [getFieldById, h]

/-- Witness for C6 at a concrete store with no entities. -/
theorem c6_get_field_by_id_absent_returns_undefined_witness :
    getFieldById rootDangling 5 = none :=
  c6_get_field_by_id_absent_returns_undefined rootDangling 5 rfl

/-- Claim C7: for every store state, closeFieldInfoWindow makes the
selection pointer absent, and clickField sets the pointer to the given
identifier unconditionally — including identifiers with no entry in the
entities map — while touching neither entities nor ids (no validation on
write). -/
theorem c7_selection_writes_unvalidated : ∀ (s : FieldsState) (id : Int),
    (fieldsReducer s Action.closeFieldInfoWindow).selectedId = none ∧
    (fieldsReducer s (Action.clickField id)).selectedId = some id ∧
    (fieldsReducer s (Action.clickField id)).entities = s.entities ∧
    (fieldsReducer s (Action.clickField id)).ids = s.ids :=
  fun _ _ => ⟨rfl, rfl, rfl, rfl⟩

/-- Claim C5: for every store state whose selection pointer is set to an
identifier with no entry in the entities map, computing the full
selected-field view raises the "Incomplete field data" error rather than
returning a defaulted or absent result. -/
theorem c5_dangling_selection_throws : ∀ (s : RootState) (id : Int),
    s.fields.selectedId = some id →
    lookupEntity s.fields.entities id = none →
    selectedFieldCardData s =
      Except.error ("Incomplete field data for id " ++ toString id) := by
  intro s id hsel hlook
  have h1 : getFieldById s id = none := by simp [getFieldById, hlook]
  have h2 : getFieldCenterById s id = none := by simp [getFieldCenterById, h1]
  simp [selectedFieldCardData, hsel, h1, h2]

/-- Witness for C5 at a concrete store whose pointer dangles at id 5. -/
theorem c5_dangling_selection_throws_witness :
    selectedFieldCardData rootDangling =
      Except.error ("Incomplete field data for id " ++ toString (5 : Int)) :=
  c5_dangling_selection_throws rootDangling 5 rfl rfl

/-- Claim C1, amended: for every field identifier present in the store,
getFieldById returns the field augmented with an outerRing holding exactly
the stored first-ring coordinate pairs whose two components both pass the
lodash isNumber classification (JavaScript type number, which admits NaN
and the infinities), in order; every other pair is dropped rather than
causing an error, and every pair of the result passes isNumber. -/
theorem c1_outer_ring_pairs_isNumber : ∀ (s : RootState) (fieldId : Int) (f : Field),
    lookupEntity s.fields.entities fieldId = some f →
    getFieldById s fieldId = some
      { field := f,
        outerRing := f.polygon.coordinates.head?.map (fun ring =>
          (ring.filter (fun p => isNumber p.1 && isNumber p.2)).map
            (fun p => { lng := p.1, lat := p.2 : LatLngLiteral })) } ∧
    (∀ fw, getFieldById s fieldId = some fw →
      ∀ ring, fw.outerRing = some ring →
        ∀ q ∈ ring, isNumber q.lng = true ∧ isNumber q.lat = true) := by
  intro s fieldId f hlook
  have hmain : getFieldById s fieldId = some
      { field := f,
        outerRing := f.polygon.coordinates.head?.map (fun ring =>
          (ring.filter (fun p => isNumber p.1 && isNumber p.2)).map
            (fun p => { lng := p.1, lat := p.2 : LatLngLiteral })) } := by
    cases hh : f.polygon.coordinates.head? with
    | none => simp [getFieldById, hlook, hh]
    | some ring =>
      have hfold := ring_foldl_filter ring ([] : List LatLngLiteral)
      rw [List.nil_append] at hfold
      simp only [getFieldById, hlook, hh, Option.map_some']
      rw [hfold]
  refine ⟨hmain, ?_⟩
  intro fw hfw ring hring q hq
  rw [hmain] at hfw
  have hfw2 := Option.some.inj hfw
  rw [← hfw2] at hring
  have hring2 : f.polygon.coordinates.head?.map (fun ring =>
      (ring.filter (fun p => isNumber p.1 && isNumber p.2)).map
        (fun p => { lng := p.1, lat := p.2 : LatLngLiteral })) = some ring := hring
  cases hh : f.polygon.coordinates.head? with
  | none => rw [hh] at hring2; simp at hring2
  | some ring0 =>
    rw [hh] at hring2
    simp only [Option.map_some'] at hring2
    have hr := Option.some.inj hring2
    rw [← hr] at hq
    rcases List.mem_map.mp hq with ⟨p, hpmem, hpq⟩
    have hpred := (List.mem_filter.mp hpmem).2
    rw [Bool.and_eq_true] at hpred
    rcases hpred with ⟨hp1, hp2⟩
    rw [← hpq]
    exact ⟨hp1, hp2⟩

/-- Witness for the amended C1 at a store whose first ring mixes a
NaN-bearing pair, a string-bearing pair and a plain numeric pair: the
string-bearing pair is dropped, the other two are kept. -/
theorem c1_outer_ring_pairs_isNumber_witness :
    getFieldById rootMixedRing 1 = some
      { field := fieldMixedRing,
        outerRing := some [{ lng := JSVal.nan, lat := JSVal.num 0 },
                           { lng := JSVal.num 1, lat := JSVal.num 2 }] } :=
  (c1_outer_ring_pairs_isNumber rootMixedRing 1 fieldMixedRing rfl).1

/-- Counterexample to C1 as stated: at the concrete store rootMixedRing
the outer ring returned for id 1 keeps the pair with NaN longitude, so it
is not true that every returned pair has finite components. -/
theorem c1_finite_claim_counterexample :
    ¬(∀ fw, getFieldById rootMixedRing 1 = some fw →
        ∀ ring, fw.outerRing = some ring →
          ∀ q ∈ ring, isFiniteNumber q.lng = true ∧ isFiniteNumber q.lat = true) := by
  intro h
  have hq := h
    { field := fieldMixedRing,
      outerRing := some [{ lng := JSVal.nan, lat := JSVal.num 0 },
                         { lng := JSVal.num 1, lat := JSVal.num 2 }] }
    (by decide)
    [{ lng := JSVal.nan, lat := JSVal.num 0 },
     { lng := JSVal.num 1, lat := JSVal.num 2 }]
    rfl
    { lng := JSVal.nan, lat := JSVal.num 0 }
    (List.mem_cons_self _ _)
  simp [isFiniteNumber] at hq

/-- Claim C2: a fulfilled fetch whose payload has pairwise-distinct
identifiers gives the store exactly one id per payload field, each
resolving to its own distinct entity; a second fulfilled fetch fully
replaces the collection (its ids are exactly the new payload's ids); and
getAllFields returns exactly the fetched fields in payload order after
each fetch. -/
theorem c2_fulfilled_fetch_replaces : ∀ (s : FieldsState) (p1 p2 : List Field),
    (p1.map (fun f => f.id)).Nodup → (p2.map (fun f => f.id)).Nodup →
    (fieldsReducer s (Action.fetchFulfilled p1)).ids.length = p1.length ∧
    (∀ f ∈ p1,
      lookupEntity (fieldsReducer s (Action.fetchFulfilled p1)).entities f.id =
        some f) ∧
    (∀ f g, f ∈ p1 → g ∈ p1 → f ≠ g →
      lookupEntity (fieldsReducer s (Action.fetchFulfilled p1)).entities f.id ≠
        lookupEntity (fieldsReducer s (Action.fetchFulfilled p1)).entities g.id) ∧
    (∀ devs, getAllFields
        { fields := fieldsReducer s (Action.fetchFulfilled p1),
          deviceEvents := devs } = Except.ok p1) ∧
    (fieldsReducer (fieldsReducer s (Action.fetchFulfilled p1))
        (Action.fetchFulfilled p2)).ids = p2.map (fun f => f.id) ∧
    (fieldsReducer (fieldsReducer s (Action.fetchFulfilled p1))
        (Action.fetchFulfilled p2)).ids.length = p2.length ∧
    (∀ devs, getAllFields
        { fields := fieldsReducer (fieldsReducer s (Action.fetchFulfilled p1))
                      (Action.fetchFulfilled p2),
          deviceEvents := devs } = Except.ok p2) := by
  intro s p1 p2 hnd1 hnd2
  have h1 : ∀ f ∈ p1, lookupEntity (fulfilledEntities p1) f.id = some f :=
    fun f hf => lookup_foldl_mem p1 [] hnd1 f hf
  have h2 : ∀ f ∈ p2, lookupEntity (fulfilledEntities p2) f.id = some f :=
    fun f hf => lookup_foldl_mem p2 [] hnd2 f hf
  refine ⟨by simp [fieldsReducer], h1, ?_, ?_, rfl, by simp [fieldsReducer], ?_⟩
  · intro f g hf hg hne heq
    have heq2 : lookupEntity (fulfilledEntities p1) f.id =
        lookupEntity (fulfilledEntities p1) g.id := heq
    rw [h1 f hf, h1 g hg] at heq2
    exact hne (Option.some.inj heq2)
  · intro devs
    exact getAllFieldsAux_ok (fulfilledEntities p1) p1 h1
  · intro devs
    exact getAllFieldsAux_ok (fulfilledEntities p2) p2 h2

/-- Witness for C2: fetching two fields then one field through the
reducer from the initial state. -/
theorem c2_fulfilled_fetch_replaces_witness :
    (fieldsReducer initialState (Action.fetchFulfilled [fldA, fldB])).ids.length = 2 ∧
    (fieldsReducer (fieldsReducer initialState (Action.fetchFulfilled [fldA, fldB]))
        (Action.fetchFulfilled [fldC])).ids = [3] ∧
    getAllFields
        { fields := fieldsReducer initialState (Action.fetchFulfilled [fldA, fldB]),
          deviceEvents := [] } = Except.ok [fldA, fldB] ∧
    getAllFields
        { fields := fieldsReducer
            (fieldsReducer initialState (Action.fetchFulfilled [fldA, fldB]))
            (Action.fetchFulfilled [fldC]),
          deviceEvents := [] } = Except.ok [fldC] := by
  have h := c2_fulfilled_fetch_replaces initialState [fldA, fldB] [fldC]
    (by decide) (by decide)
  exact ⟨h.1, h.2.2.2.2.1, h.2.2.2.1 [], h.2.2.2.2.2.2 []⟩

/-- One reducer step preserves the invariant that every listed id has an
entity. -/
theorem reducer_preserves_cover : ∀ (s : FieldsState) (a : Action),
    (∀ id ∈ s.ids, (lookupEntity s.entities id).isSome = true) →
    ∀ id ∈ (fieldsReducer s a).ids,
      (lookupEntity (fieldsReducer s a).entities id).isSome = true := by
  intro s a hinv
  cases a with
  | clickField id => exact hinv
  | closeFieldInfoWindow => exact hinv
  | fetchPending => exact hinv
  | fetchRejected => exact hinv
  | fetchFulfilled payload =>
    intro id hid
    have hid2 : id ∈ payload.map (fun f => f.id) := hid
    rcases List.mem_map.mp hid2 with ⟨f, hf, hfid⟩
    exact lookup_foldl_isSome payload [] id (Or.inl ⟨f, hf, hfid⟩)

/-- Any run of the reducer preserves the id-cover invariant. -/
theorem runActions_cover (acts : List Action) :
    ∀ s : FieldsState, (∀ id ∈ s.ids, (lookupEntity s.entities id).isSome = true) →
      ∀ id ∈ (acts.foldl fieldsReducer s).ids,
        (lookupEntity (acts.foldl fieldsReducer s).entities id).isSome = true := by
  induction acts with
  | nil => intro s hinv; exact hinv
  | cons a rest ih =>
    intro s hinv
    exact ih (fieldsReducer s a) (reducer_preserves_cover s a hinv)

/-- Claim C10: in every store state reachable from the initial state by
any action sequence (selection writes and arbitrary fetch lifecycle
events, with arbitrary payloads), every identifier in the ids list has an
entry in the entities map, and consequently getAllFields succeeds — its
missing-entity error branch is unreachable. -/
theorem c10_ids_always_resolvable :
    ∀ (acts : List Action) (devs : List DeviceEvent),
      ((runActions acts).ids.all
        (fun id => (lookupEntity (runActions acts).entities id).isSome)) = true ∧
      ∃ fs, getAllFields { fields := runActions acts, deviceEvents := devs } =
        Except.ok fs := by
  intro acts devs
  have hcov : ∀ id ∈ (runActions acts).ids,
      (lookupEntity (runActions acts).entities id).isSome = true :=
    runActions_cover acts initialState (by intro id hid; exact absurd hid (List.not_mem_nil id))
  constructor
  · exact List.all_eq_true.mpr hcov
  · exact getAllFieldsAux_ok_of_isSome (runActions acts).entities (runActions acts).ids hcov

/-- When the id resolves, getFieldById returns some result whose field
part is the stored entity. -/
theorem getFieldById_some (s : RootState) (id : Int) (f : Field)
    (hlook : lookupEntity s.fields.entities id = some f) :
    ∃ fw, getFieldById s id = some fw ∧ fw.field = f := by
  unfold getFieldById
  rw [hlook]
  exact ⟨_, rfl, rfl⟩

/-- When the id resolves, getFieldCenterById returns the geometry-library
center of the stored entity's polygon (both components pass isNumber, so
the guard accepts them). -/
theorem getFieldCenterById_some (s : RootState) (id : Int) (f : Field)
    (hlook : lookupEntity s.fields.entities id = some f) :
    getFieldCenterById s id =
      some { lng := (turfCenter f.polygon).1, lat := (turfCenter f.polygon).2 } := by
  rcases getFieldById_some s id f hlook with ⟨fw, hfw, hfld⟩
  have ht := turfCenter_isNumber f.polygon
  simp [getFieldCenterById, hfw, hfld, ht.1, ht.2]

/-- When a stored field is selected, the SelectedFieldCard selector
succeeds with the field's name, the geometry-library center of its
polygon, and the device events looked up under the hard-coded name
"Perez-Brown". -/
theorem selectedCard_ok (s : RootState) (id : Int) (f : Field)
    (hsel : s.fields.selectedId = some id)
    (hlook : lookupEntity s.fields.entities id = some f) :
    selectedFieldCardData s = Except.ok (some
      { fieldName := f.field_name,
        center := { lng := (turfCenter f.polygon).1, lat := (turfCenter f.polygon).2 },
        mostRecentEvents := getMostRecentEventsPerField s "Perez-Brown" }) := by
  rcases getFieldById_some s id f hlook with ⟨fw, hfw, hfld⟩
  have hc := getFieldCenterById_some s id f hlook
  simp [selectedFieldCardData, hsel, hfw, hfld, hc]

/-- Claim C9: getFieldCenterById delegates to the geometry library's
center over the field's polygon — it is absent when the field is absent,
and any returned value is exactly that center with both components
passing the isNumber validity check; on the spec's worked example store,
getAllFields returns exactly the one fetched field and the center for
id 1 is exactly (1/2, 1/2). -/
theorem c9_center_delegation_and_example :
    (∀ (s : RootState) (id : Int), lookupEntity s.fields.entities id = none →
        getFieldCenterById s id = none) ∧
    (∀ (s : RootState) (id : Int) (c : LatLngLiteral),
        getFieldCenterById s id = some c →
        isNumber c.lng = true ∧ isNumber c.lat = true ∧
          ∀ fw, getFieldById s id = some fw →
            c = { lng := (turfCenter fw.field.polygon).1,
                  lat := (turfCenter fw.field.polygon).2 }) ∧
    getAllFields exRoot = Except.ok [exFieldNorth] ∧
    getFieldCenterById exRoot 1 =
      some { lng := JSVal.num (1 / 2), lat := JSVal.num (1 / 2) } := by
  refine ⟨?_, ?_, rfl, ?_⟩
  · intro s id h
    have h1 : getFieldById s id = none := by simp [getFieldById, h]
    simp [getFieldCenterById, h1]
  · intro s id c hc
    cases hfb : getFieldById s id with
    | none => rw [getFieldCenterById, hfb] at hc; exact absurd hc (by simp)
    | some fw =>
      rw [getFieldCenterById, hfb] at hc
      simp only at hc
      by_cases hcond :
          (isNumber (turfCenter fw.field.polygon).1 &&
            isNumber (turfCenter fw.field.polygon).2) = true
      · rw [if_pos hcond] at hc
        have hceq := Option.some.inj hc
        rw [Bool.and_eq_true] at hcond
        refine ⟨?_, ?_, ?_⟩
        · rw [← hceq]; exact hcond.1
        · rw [← hceq]; exact hcond.2
        · intro fw2 hfw2
          rw [← Option.some.inj hfw2, ← hceq]
      · rw [if_neg hcond] at hc
        exact absurd hc (by simp)
  · have hc := getFieldCenterById_some exRoot 1 exFieldNorth rfl
    have ht : turfCenter exFieldNorth.polygon =
        (JSVal.num ((0 + 1) / 2), JSVal.num ((0 + 1) / 2)) := rfl
    rw [hc, ht]
    norm_num

/-- Witness for C9: the absent branch at a concrete store, and the
isNumber fact extracted from the worked example's center. -/
theorem c9_center_delegation_and_example_witness :
    getFieldCenterById rootDangling 7 = none ∧
      isNumber (JSVal.num (1 / 2)) = true :=
  ⟨c9_center_delegation_and_example.1 rootDangling 7 rfl,
   (c9_center_delegation_and_example.2.1 exRoot 1
      { lng := JSVal.num (1 / 2), lat := JSVal.num (1 / 2) }
      c9_center_delegation_and_example.2.2.2).1⟩

/-- Claim C4: in the current build the selected-field view looks its
device events up under the hard-coded field name "Perez-Brown", so for
any two store states that differ only in which (stored) field is
selected, the view succeeds on both and computes the same events
mapping. -/
theorem c4_selected_view_events_ignore_selection :
    ∀ (s : RootState) (id1 id2 : Int) (f1 f2 : Field),
      lookupEntity s.fields.entities id1 = some f1 →
      lookupEntity s.fields.entities id2 = some f2 →
      selectedFieldCardData (withSelected s id1) = Except.ok (some
        { fieldName := f1.field_name,
          center := { lng := (turfCenter f1.polygon).1,
                      lat := (turfCenter f1.polygon).2 },
          mostRecentEvents := getMostRecentEventsPerField s "Perez-Brown" }) ∧
      selectedFieldCardData (withSelected s id2) = Except.ok (some
        { fieldName := f2.field_name,
          center := { lng := (turfCenter f2.polygon).1,
                      lat := (turfCenter f2.polygon).2 },
          mostRecentEvents := getMostRecentEventsPerField s "Perez-Brown" }) ∧
      getMostRecentEventsPerField (withSelected s id1) "Perez-Brown" =
        getMostRecentEventsPerField (withSelected s id2) "Perez-Brown" := by
  intro s id1 id2 f1 f2 hlook1 hlook2
  refine ⟨?_, ?_, rfl⟩
  · exact selectedCard_ok (withSelected s id1) id1 f1 rfl hlook1
  · exact selectedCard_ok (withSelected s id2) id2 f2 rfl hlook2

/-- Witness for C4 at a concrete two-field store with one device-events
group: selecting field 1 and selecting field 2 both succeed and show the
same "Perez-Brown" events mapping. -/
theorem c4_selected_view_events_ignore_selection_witness :
    selectedFieldCardData (withSelected rootTwoFields 1) = Except.ok (some
      { fieldName := fldA.field_name,
        center := { lng := (turfCenter fldA.polygon).1,
                    lat := (turfCenter fldA.polygon).2 },
        mostRecentEvents := getMostRecentEventsPerField rootTwoFields "Perez-Brown" }) ∧
    selectedFieldCardData (withSelected rootTwoFields 2) = Except.ok (some
      { fieldName := fldB.field_name,
        center := { lng := (turfCenter fldB.polygon).1,
                    lat := (turfCenter fldB.polygon).2 },
        mostRecentEvents := getMostRecentEventsPerField rootTwoFields "Perez-Brown" }) ∧
    getMostRecentEventsPerField (withSelected rootTwoFields 1) "Perez-Brown" =
      getMostRecentEventsPerField (withSelected rootTwoFields 2) "Perez-Brown" :=
  c4_selected_view_events_ignore_selection rootTwoFields 1 2 fldA fldB rfl rfl

/-- Extracting a fetch action of the tail of a session trace contradicts a
settling event already present in the head's fetch subsequence. -/
theorem session_no_fetch_after_settle (pre suf : List Action)
    (hst : SessionTrace (pre ++ suf))
    (x : Action) (hxmem : x ∈ pre.filter isFetchAct) (hxsettle : isSettleAct x = true) :
    suf.filter isFetchAct = [] := by
  cases hb : suf.filter isFetchAct with
  | nil => rfl
  | cons b bs =>
    exfalso
    have hbmem : b ∈ suf.filter isFetchAct := by rw [hb]; exact List.mem_cons_self b bs
    have hbsuf : b ∈ suf := (List.mem_filter.mp hbmem).1
    have hbf : isFetchAct b = true := (List.mem_filter.mp hbmem).2
    rcases List.append_of_mem hbsuf with ⟨s1, s2, hdecomp⟩
    have hs : sessionFetchSeq
        ((pre ++ s1).filter isFetchAct ++ b :: s2.filter isFetchAct) := by
      have h0 := hst
      unfold SessionTrace at h0
      rw [hdecomp, ← List.append_assoc, filter_fetch_append,
        show (b :: s2).filter isFetchAct = b :: s2.filter isFetchAct from by
          rw [List.filter_cons, if_pos hbf]] at h0
      exact h0
    rcases sessionSeq_decomp _ _ _ hs with ⟨hfp, _⟩ | ⟨hfp, _⟩
    · have hx : x ∈ (pre ++ s1).filter isFetchAct := by
        rw [filter_fetch_append]
        exact List.mem_append_left _ hxmem
      rw [hfp] at hx
      exact List.not_mem_nil x hx
    · have hx : x ∈ (pre ++ s1).filter isFetchAct := by
        rw [filter_fetch_append]
        exact List.mem_append_left _ hxmem
      rw [hfp] at hx
      have hxp : x = Action.fetchPending := by simpa using hx
      rw [hxp] at hxsettle
      simp [isSettleAct] at hxsettle

/-- In a session trace, once the run of a prefix has settled the fetch
status, running the rest of the trace leaves the status unchanged. -/
theorem session_settled_terminal (pre suf : List Action)
    (hst : SessionTrace (pre ++ suf))
    (hsettled : Settled (runActions pre).fetchStatus) :
    (runActions (pre ++ suf)).fetchStatus = (runActions pre).fetchStatus := by
  have hpre : (runActions pre).fetchStatus =
      statusAfter none (pre.filter isFetchAct) := foldl_fetchStatus pre initialState
  have hsettled2 : Settled (statusAfter none (pre.filter isFetchAct)) := by
    rw [← hpre]
    exact hsettled
  rcases settled_has_settle (pre.filter isFetchAct) hsettled2 with ⟨x, hxmem, hxsettle⟩
  have hsufnil := session_no_fetch_after_settle pre suf hst x hxmem hxsettle
  have hall : (runActions (pre ++ suf)).fetchStatus =
      statusAfter none ((pre ++ suf).filter isFetchAct) :=
    foldl_fetchStatus (pre ++ suf) initialState
  rw [filter_fetch_append, hsufnil, List.append_nil] at hall
  rw [hall, hpre]

/-- In a session trace, every single reducer step moves the fetch status
along an edge of the spec's state machine. -/
theorem session_step_allowed (pre : List Action) (a : Action) (suf : List Action)
    (hst : SessionTrace (pre ++ a :: suf)) :
    allowedStep (runActions pre).fetchStatus
      (fieldsReducer (runActions pre) a).fetchStatus := by
  have hpre : (runActions pre).fetchStatus =
      statusAfter none (pre.filter isFetchAct) := foldl_fetchStatus pre initialState
  cases a with
  | clickField id => exact Or.inl rfl
  | closeFieldInfoWindow => exact Or.inl rfl
  | fetchPending =>
    have hs : sessionFetchSeq
        (pre.filter isFetchAct ++ Action.fetchPending :: suf.filter isFetchAct) := by
      have h0 := hst
      unfold SessionTrace at h0
      rw [filter_fetch_append,
        show (Action.fetchPending :: suf).filter isFetchAct =
            Action.fetchPending :: suf.filter isFetchAct from by
          rw [List.filter_cons]; rfl] at h0
      exact h0
    rcases sessionSeq_decomp _ _ _ hs with ⟨hfp, _⟩ | ⟨_, hset⟩
    · refine Or.inr (Or.inl ⟨?_, rfl⟩)
      rw [hpre, hfp]
      rfl
    · simp [isSettleAct] at hset
  | fetchFulfilled payload =>
    have hs : sessionFetchSeq
        (pre.filter isFetchAct ++
          Action.fetchFulfilled payload :: suf.filter isFetchAct) := by
      have h0 := hst
      unfold SessionTrace at h0
      rw [filter_fetch_append,
        show (Action.fetchFulfilled payload :: suf).filter isFetchAct =
            Action.fetchFulfilled payload :: suf.filter isFetchAct from by
          rw [List.filter_cons]; rfl] at h0
      exact h0
    rcases sessionSeq_decomp _ _ _ hs with ⟨_, hpend⟩ | ⟨hfp, _⟩
    · exact absurd hpend (by simp)
    · refine Or.inr (Or.inr ⟨?_, Or.inl rfl⟩)
      rw [hpre, hfp]
      rfl
  | fetchRejected =>
    have hs : sessionFetchSeq
        (pre.filter isFetchAct ++
          Action.fetchRejected :: suf.filter isFetchAct) := by
      have h0 := hst
      unfold SessionTrace at h0
      rw [filter_fetch_append,
        show (Action.fetchRejected :: suf).filter isFetchAct =
            Action.fetchRejected :: suf.filter isFetchAct from by
          rw [List.filter_cons]; rfl] at h0
      exact h0
    rcases sessionSeq_decomp _ _ _ hs with ⟨_, hpend⟩ | ⟨hfp, _⟩
    · exact absurd hpend (by simp)
    · refine Or.inr (Or.inr ⟨?_, Or.inr rfl⟩)
      rw [hpre, hfp]
      rfl

/-- Claim C8: along every action trace reachable in a session (the fetch
thunk dispatched once: its lifecycle subsequence is a pending followed by
at most one settling event), each reducer step moves the fetch status
along the machine unstarted to pending to fulfilled-or-rejected, and the
status is terminal once settled — no later step of the session changes
it. -/
theorem c8_fetch_status_state_machine :
    (∀ (pre : List Action) (a : Action) (suf : List Action),
        SessionTrace (pre ++ a :: suf) →
        allowedStep (runActions pre).fetchStatus
          (fieldsReducer (runActions pre) a).fetchStatus) ∧
    (∀ pre suf : List Action,
        SessionTrace (pre ++ suf) → Settled (runActions pre).fetchStatus →
        (runActions (pre ++ suf)).fetchStatus = (runActions pre).fetchStatus) :=
  ⟨session_step_allowed, session_settled_terminal⟩

/-- Witness for C8: a concrete session — pending, then rejected, then a
selection click — takes an allowed settling step and keeps its settled
status across the tail. -/
theorem c8_fetch_status_state_machine_witness :
    allowedStep (runActions [Action.fetchPending]).fetchStatus
      (fieldsReducer (runActions [Action.fetchPending]) Action.fetchRejected).fetchStatus ∧
    (runActions ([Action.fetchPending, Action.fetchRejected] ++
        [Action.clickField 7])).fetchStatus =
      (runActions [Action.fetchPending, Action.fetchRejected]).fetchStatus :=
  ⟨c8_fetch_status_state_machine.1 [Action.fetchPending] Action.fetchRejected []
      ⟨rfl, rfl⟩,
   c8_fetch_status_state_machine.2 [Action.fetchPending, Action.fetchRejected]
      [Action.clickField 7] ⟨rfl, rfl⟩ (Or.inr rfl)⟩

end FarmHQ
